import Mathlib

/-!
Shallow embedding of `StackVector<T>` (src/stackvector.h): the stack/heap
capacity decision, storage acquisition, element lifecycle, iteration and
indexed access.  Machine `ULONG`/`size_t` values (32-bit unsigned on the
target) are modelled as `Nat` with explicit reduction modulo `2^32`.
-/

namespace SV

/-- Width of the target's `ULONG` / `size_t` (32-bit MorphOS/PPC). -/
def U32 : Nat := 2 ^ 32

/-- Unsigned 32-bit addition, as performed on `ULONG` operands. -/
def uadd (a b : Nat) : Nat := (a + b) % U32

/-- Unsigned 32-bit subtraction (wrapping), as performed on `ULONG` operands. -/
def usub (a b : Nat) : Nat := (a % U32 + (U32 - b % U32)) % U32

/-- The host-environment facts `canReserveStack` consults: the calling
thread's stack bounds (`ETask::PPCSPLower` / `PPCSPUpper`), the address of
the buffer object itself (`this`), whether the `NewGetTaskAttrsA` stack-usage
query succeeds (returns non-zero), and the used-stack byte count it reports. -/
structure StackEnv where
  spLower : Nat
  spUpper : Nat
  thisAddr : Nat
  queryOk : Bool
  usedStack : Nat

/-- Embeds `StackVector::isStackAddress`:
`address > e->PPCSPLower && address < e->PPCSPUpper`. -/
def isStackAddress (env : StackEnv) (address : Nat) : Bool :=
  decide (env.spLower < address) && decide (address < env.spUpper)

/-- Embeds `StackVector::canReserveStack(size, mustLeaveStackSizeForScope)`:
`this` must be a stack address, the usage query must succeed, and then
`(lower + mustLeaveStackSizeForScope) < (current - size)` in `ULONG`
arithmetic, where `current = ULONG(PPCSPUpper) - usedStack`. -/
def canReserveStack (env : StackEnv) (size mustLeave : Nat) : Bool :=
  if isStackAddress env env.thisAddr then
    if env.queryOk then
      let lower := env.spLower % U32
      let current := usub (env.spUpper) env.usedStack
      decide (uadd lower mustLeave < usub current size)
    else false
  else false

/-- The allocation-path tag: frame-local (`alloca`) or heap (`malloc`). -/
inductive StorageOrigin where
  | FrameLocal : StorageOrigin
  | Heap : StorageOrigin
deriving DecidableEq

/-- The capacity decision as a tag: `FrameLocal` exactly when
`canReserveStack` answers true. -/
def decideOrigin (env : StackEnv) (size mustLeave : Nat) : StorageOrigin :=
  if canReserveStack env size mustLeave then .FrameLocal else .Heap

/-- The state of a `StackVector<T>` object: `_memory` (null modelled as
`none`, otherwise the raw slot contents as a function from slot index),
`_size`, `_callFree` and `_callConstructorsDestructors`. -/
structure StackVector (T : Type) where
  memory : Option (Nat → T)
  size : Nat
  callFree : Bool
  callCtorsDtors : Bool

/-- Computes `needBytes = size * sizeof(T)` in 32-bit `size_t` arithmetic. -/
def needBytes (sizeofT sz : Nat) : Nat := (sz * sizeofT) % U32

/-- The constructor `StackVector(size, mustLeaveStackSizeForScope,
callConstructorsDestructors)`: decide the storage origin with
`canReserveStack(size * sizeof(T), mustLeave)`; on the stack path take the
`alloca` storage (`stackMem`, always non-null) with `_callFree = false`; on
the heap path take the `malloc` result (`heapMem`, `none` on failure) with
`_callFree = true`.  `_size` is the requested count in either case. -/
def mkStackVector (T : Type) (sizeofT sz mustLeave : Nat) (callCD : Bool)
    (env : StackEnv) (stackMem : Nat → T) (heapMem : Option (Nat → T)) :
    StackVector T :=
  if canReserveStack env (needBytes sizeofT sz) mustLeave then
    ⟨some stackMem, sz, false, callCD⟩
  else
    ⟨heapMem, sz, true, callCD⟩

/-- Embeds `StackVector::count`. -/
def count {T : Type} (v : StackVector T) : Nat := v.size

/-- Embeds `StackVector::isValid`: `_memory != nullptr && _size > 0`. -/
def isValid {T : Type} (v : StackVector T) : Bool :=
  v.memory.isSome && decide (0 < v.size)

/-- The allocation-path tag recorded in the object: `_callFree` is set
exactly on the `malloc` path. -/
def storageOrigin {T : Type} (v : StackVector T) : StorageOrigin :=
  if v.callFree then .Heap else .FrameLocal

/-- Observable element-lifecycle and release actions of the constructor
and destructor. -/
inductive Event where
  | construct : Nat → Event
  | destruct : Nat → Event
  | release : Event
deriving DecidableEq

/-- Whether an event is an element construction. -/
def isConstructEv : Event → Bool
  | .construct _ => true
  | _ => false

/-- Whether an event is an element destruction. -/
def isDestructEv : Event → Bool
  | .destruct _ => true
  | _ => false

/-- Element constructions performed by the constructor: if
`_callConstructorsDestructors && _memory`, placement-new each slot
`0 .. size-1` in ascending order; otherwise none. -/
def ctorEvents {T : Type} (v : StackVector T) : List Event :=
  if v.callCtorsDtors && v.memory.isSome then
    (List.range v.size).map Event.construct
  else []

/-- Actions of the destructor: if `_callConstructorsDestructors && _memory`,
destruct each slot `0 .. _size-1` in ascending order; then, if `_callFree`,
call `free(_memory)`. -/
def dtorEvents {T : Type} (v : StackVector T) : List Event :=
  (if v.callCtorsDtors && v.memory.isSome then
    (List.range v.size).map Event.destruct
  else []) ++ (if v.callFree then [Event.release] else [])

/-- The full observable lifecycle: constructor actions then destructor
actions. -/
def lifeEvents {T : Type} (v : StackVector T) : List Event :=
  ctorEvents v ++ dtorEvents v

/-- The loop body of `forEach`: `for (idx = 0; idx < _size; idx++)
onEach(_memory[idx], idx)`.  The result records the sequence of callback
invocations, each with the element passed and the index passed. -/
def forEachLoop {T : Type} (mem : Nat → T) (sz idx : Nat) : List (T × Nat) :=
  if idx < sz then (mem idx, idx) :: forEachLoop mem sz (idx + 1) else []
termination_by sz - idx

/-- Embeds `StackVector::forEach(onEach)`: runs the loop only when `_memory` is
non-null.  Returns the sequence of callback invocations. -/
def forEach {T : Type} (v : StackVector T) : List (T × Nat) :=
  match v.memory with
  | some mem => forEachLoop mem v.size 0
  | none => []

/-- The loop body of `whileEach`: like `forEach` but `break`s right after
the first invocation whose callback returns false. -/
def whileEachLoop {T : Type} (mem : Nat → T) (f : T → Nat → Bool)
    (sz idx : Nat) : List (T × Nat) :=
  if idx < sz then
    if f (mem idx) idx then (mem idx, idx) :: whileEachLoop mem f sz (idx + 1)
    else [(mem idx, idx)]
  else []
termination_by sz - idx

/-- Embeds `StackVector::whileEach(onEach)`: runs the early-exit loop only when
`_memory` is non-null.  Returns the sequence of callback invocations. -/
def whileEach {T : Type} (v : StackVector T) (f : T → Nat → Bool) :
    List (T × Nat) :=
  match v.memory with
  | some mem => whileEachLoop mem f v.size 0
  | none => []

/-- Embeds `StackVector::operator[]`: under `STACKVECTORDEBUG` (modelled by the
`debugBuild` flag) an index `>= _size` prints a diagnostic; in either build
the function returns `_memory[index]` unchecked.  The result pairs the
returned slot with whether the diagnostic fired. -/
def idxAccess {T : Type} (mem : Nat → T) (sz : Nat) (debugBuild : Bool)
    (index : Nat) : T × Bool :=
  let diag := if debugBuild then (if sz ≤ index then true else false)
              else false
  (mem index, diag)

/-- The mutable `forEach` overload's effect on the buffer: the callback
receives `T&` and may overwrite each visited slot; the object's `_memory`
pointer, `_size` and flags are untouched. -/
def forEachUpdate {T : Type} (v : StackVector T) (f : T → Nat → T) :
    StackVector T :=
  match v.memory with
  | none => v
  | some mem =>
    { v with memory := some fun i => if i < v.size then f (mem i) i else mem i }

/-! ### Loop lemmas shared by the iteration claims -/

theorem forEachLoop_eq_range' {T : Type} (mem : Nat → T) (sz idx : Nat) :
    forEachLoop mem sz idx
      = (List.range' idx (sz - idx)).map (fun i => (mem i, i)) := by
  rw [forEachLoop]
  split
  · have h1 : sz - idx = (sz - (idx + 1)) + 1 := by omega
    rw [forEachLoop_eq_range' mem sz (idx + 1), h1, List.range'_succ]
    simp
  · have h0 : sz - idx = 0 := by omega
    simp [h0]
termination_by sz - idx

theorem whileEachLoop_eq_of_all_true {T : Type} (mem : Nat → T)
    (f : T → Nat → Bool) (sz idx : Nat)
    (h : ∀ i, idx ≤ i → i < sz → f (mem i) i = true) :
    whileEachLoop mem f sz idx
      = (List.range' idx (sz - idx)).map (fun i => (mem i, i)) := by
  rw [whileEachLoop]
  split
  · rename_i hlt
    rw [h idx le_rfl hlt]
    simp only [if_pos rfl]
    have h1 : sz - idx = (sz - (idx + 1)) + 1 := by omega
    rw [whileEachLoop_eq_of_all_true mem f sz (idx + 1)
      (fun i hi hi2 => h i (by omega) hi2), h1, List.range'_succ]
    simp
  · have h0 : sz - idx = 0 := by omega
    simp [h0]
termination_by sz - idx

theorem whileEachLoop_eq_of_stop {T : Type} (mem : Nat → T)
    (f : T → Nat → Bool) (sz idx j : Nat) (hij : idx ≤ j) (hj : j < sz)
    (htrue : ∀ i, i < j → f (mem i) i = true) (hfalse : f (mem j) j = false) :
    whileEachLoop mem f sz idx
      = (List.range' idx (j + 1 - idx)).map (fun i => (mem i, i)) := by
  rw [whileEachLoop]
  rw [if_pos (by omega : idx < sz)]
  by_cases hej : idx = j
  · subst hej
    rw [hfalse]
    simp only [if_neg (by decide : ¬(false = true))]
    have h1 : idx + 1 - idx = 1 := by omega
    simp [h1]
  · rw [htrue idx (by omega)]
    simp only [if_pos rfl]
    rw [whileEachLoop_eq_of_stop mem f sz (idx + 1) j (by omega) hj htrue hfalse]
    have h1 : j + 1 - idx = (j + 1 - (idx + 1)) + 1 := by omega
    rw [h1, List.range'_succ]
    simp
termination_by sz - idx

/-- C4: with non-null storage, `forEach` invokes the callback exactly once
per index `0 .. elementCount - 1`, in strictly ascending index order,
passing the element at that index together with the index, and runs to
completion; with null storage it performs zero invocations. -/
theorem C4_forEach_visits_all {T : Type} (mem : Nat → T) (n : Nat)
    (cf cd : Bool) :
    forEach (⟨some mem, n, cf, cd⟩ : StackVector T)
        = (List.range n).map (fun i => (mem i, i)) ∧
    List.map Prod.snd (forEach (⟨some mem, n, cf, cd⟩ : StackVector T))
        = List.range n ∧
    List.Pairwise (· < ·)
        (List.map Prod.snd (forEach (⟨some mem, n, cf, cd⟩ : StackVector T))) ∧
    forEach (⟨none, n, cf, cd⟩ : StackVector T) = [] := by
  have hmain : forEach (⟨some mem, n, cf, cd⟩ : StackVector T)
      = (List.range n).map (fun i => (mem i, i)) := by
    show forEachLoop mem n 0 = _
    rw [forEachLoop_eq_range', List.range_eq_range']
    simp
  have hcomp : (Prod.snd ∘ fun i => ((mem i, i) : T × Nat)) = (id : Nat → Nat) :=
    rfl
  refine ⟨hmain, ?_, ?_, rfl⟩
  · rw [hmain, List.map_map, hcomp, List.map_id]
  · rw [hmain, List.map_map, hcomp, List.map_id]
    exact List.pairwise_lt_range n

/-- C3: with non-null storage, `whileEach` visits indices in ascending
order and stops at the first index whose callback returns false (that call
is made, later indices are not visited); if every call returns true all of
`0 .. elementCount - 1` are visited; with null storage it performs zero
invocations. -/
theorem C3_whileEach_early_exit {T : Type} (mem : Nat → T)
    (f : T → Nat → Bool) (n : Nat) (cf cd : Bool) :
    (∀ j, j < n → (∀ i, i < j → f (mem i) i = true) → f (mem j) j = false →
      whileEach (⟨some mem, n, cf, cd⟩ : StackVector T) f
        = (List.range (j + 1)).map (fun i => (mem i, i))) ∧
    ((∀ i, i < n → f (mem i) i = true) →
      whileEach (⟨some mem, n, cf, cd⟩ : StackVector T) f
        = (List.range n).map (fun i => (mem i, i))) ∧
    whileEach (⟨none, n, cf, cd⟩ : StackVector T) f = [] := by
  refine ⟨?_, ?_, rfl⟩
  · intro j hj htrue hfalse
    show whileEachLoop mem f n 0 = _
    rw [whileEachLoop_eq_of_stop mem f n 0 j (Nat.zero_le j) hj htrue hfalse,
      List.range_eq_range']
    simp
  · intro hall
    show whileEachLoop mem f n 0 = _
    rw [whileEachLoop_eq_of_all_true mem f n 0 (fun i _ hi => hall i hi),
      List.range_eq_range']
    simp

/-- Witness for C3 at `elementCount = 10` with a callback returning false
exactly at index 3: exactly indices 0,1,2,3 are visited. -/
theorem C3_whileEach_early_exit_witness :
    whileEach (⟨some (fun i => i), 10, false, false⟩ : StackVector Nat)
        (fun _ i => decide (i ≠ 3))
      = (List.range 4).map (fun i => (i, i)) :=
  (C3_whileEach_early_exit (fun i => i) (fun _ i => decide (i ≠ 3))
    10 false false).1 3 (by decide) (by decide) (by decide)

/-- C1: the capacity decision yields `FrameLocal` if and only if the buffer
object's own address lies within the thread's stack bounds, the stack-usage
query succeeds, and `lower + mustLeaveStackSizeForScope <
(upper - usedStack) - needBytes` in the code's `ULONG` arithmetic, with
`needBytes = elementCount * sizeof(Element)`; in every other case it yields
`Heap`. -/
theorem C1_capacity_decision (env : StackEnv) (sizeofT sz mustLeave : Nat) :
    decideOrigin env (needBytes sizeofT sz) mustLeave = StorageOrigin.FrameLocal ↔
      ((env.spLower < env.thisAddr ∧ env.thisAddr < env.spUpper) ∧
       env.queryOk = true ∧
       uadd (env.spLower % U32) mustLeave
         < usub (usub env.spUpper env.usedStack) (needBytes sizeofT sz)) := by
  unfold decideOrigin canReserveStack isStackAddress
  by_cases h1 : env.spLower < env.thisAddr <;>
    by_cases h2 : env.thisAddr < env.spUpper <;>
    cases hq : env.queryOk <;>
    simp [h1, h2, hq]

/-- Witness for C1: a concrete environment and request on which all three
conditions hold and the decision is `FrameLocal`. -/
theorem C1_capacity_decision_witness :
    decideOrigin ⟨4096, 131072, 65536, true, 32768⟩ (needBytes 4 10) 1024
      = StorageOrigin.FrameLocal :=
  (C1_capacity_decision ⟨4096, 131072, 65536, true, 32768⟩ 4 10 1024).mpr
    (by refine ⟨⟨by decide, by decide⟩, rfl, ?_⟩; decide)

/-- C9: the capacity comparison is 32-bit unsigned arithmetic — both sides
are the mod-`2^32` residues of the exact values — and on a request larger
than the current stack frontier the subtraction wraps, so the code can
answer `FrameLocal` where exact integer arithmetic would reject. -/
theorem C9_unsigned_wraparound :
    (∀ a b : Nat, (uadd a b : Int) = ((a : Int) + b) % (U32 : Int)) ∧
    (∀ a b : Nat, a < U32 → b < U32 →
      (usub a b : Int) = ((a : Int) - b) % (U32 : Int)) ∧
    canReserveStack ⟨4096, 131072, 65536, true, 32768⟩ 131072 16384 = true ∧
    ¬ ((4096 : Int) + 16384 < ((131072 : Int) - 32768) - 131072) := by
  refine ⟨?_, ?_, by decide, by decide⟩
  · intro a b
    simp [uadd, Int.natCast_mod, Nat.cast_add]
  · intro a b ha hb
    have ha' : a % U32 = a := Nat.mod_eq_of_lt ha
    have hb' : b % U32 = b := Nat.mod_eq_of_lt hb
    rw [usub, ha', hb']
    rw [Int.natCast_mod]
    push_cast [Nat.cast_sub hb.le]
    have hU : ((U32 : Nat) : Int) = 4294967296 := by norm_num [U32]
    rw [hU] at *
    omega

/-- Witness for C9: the unsigned-subtraction characterization at concrete
operands. -/
theorem C9_unsigned_wraparound_witness :
    (5 : Nat) < U32 ∧ (3 : Nat) < U32 ∧
      (usub 5 3 : Int) = ((5 : Int) - 3) % (U32 : Int) :=
  ⟨by decide, by decide,
    C9_unsigned_wraparound.2.1 5 3 (by decide) (by decide)⟩

theorem count_release_map_destruct (l : List Nat) :
    ((l.map Event.destruct).count Event.release) = 0 := by
  rw [List.count_eq_zero]
  simp

/-- C2: with `ownsElementLifecycle = true` and non-null storage, the
constructor performs exactly `elementCount` element constructions, one per
slot in ascending index order from 0; the destructor performs exactly
`elementCount` element destructions; in the full lifecycle trace every
construction precedes every destruction.  With `ownsElementLifecycle =
false` no element construction or destruction is performed. -/
theorem C2_element_lifecycle {T : Type} (mem : Nat → T) (n : Nat) (cf : Bool)
    (mo : Option (Nat → T)) :
    ctorEvents (⟨some mem, n, cf, true⟩ : StackVector T)
        = (List.range n).map Event.construct ∧
    (dtorEvents (⟨some mem, n, cf, true⟩ : StackVector T)).filter isDestructEv
        = (List.range n).map Event.destruct ∧
    (∀ m k i j,
      (lifeEvents (⟨some mem, n, cf, true⟩ : StackVector T)).get? m
          = some (Event.construct i) →
      (lifeEvents (⟨some mem, n, cf, true⟩ : StackVector T)).get? k
          = some (Event.destruct j) → m < k) ∧
    ctorEvents (⟨mo, n, cf, false⟩ : StackVector T) = [] ∧
    (dtorEvents (⟨mo, n, cf, false⟩ : StackVector T)).filter
        (fun e => isConstructEv e || isDestructEv e) = [] := by
  have hctor : ctorEvents (⟨some mem, n, cf, true⟩ : StackVector T)
      = (List.range n).map Event.construct := by
    simp [ctorEvents]
  have hdtor : dtorEvents (⟨some mem, n, cf, true⟩ : StackVector T)
      = (List.range n).map Event.destruct
          ++ (if cf then [Event.release] else []) := by
    simp [dtorEvents]
  refine ⟨hctor, ?_, ?_, ?_, ?_⟩
  · rw [hdtor, List.filter_append]
    have h1 : ((List.range n).map Event.destruct).filter isDestructEv
        = (List.range n).map Event.destruct := by
      rw [List.filter_eq_self]
      simp [isDestructEv]
    have h2 : ((if cf then [Event.release] else []) : List Event).filter
        isDestructEv = [] := by
      cases cf <;> simp [isDestructEv]
    rw [h1, h2, List.append_nil]
  · intro m k i j hm hk
    have hlife : lifeEvents (⟨some mem, n, cf, true⟩ : StackVector T)
        = (List.range n).map Event.construct
            ++ ((List.range n).map Event.destruct
                ++ (if cf then [Event.release] else [])) := by
      rw [lifeEvents, hctor, hdtor]
    rw [hlife] at hm hk
    have hlen : ((List.range n).map Event.construct).length = n := by simp
    have hmn : m < n := by
      by_contra hge
      rw [List.get?_append_right (by omega)] at hm
      have hmem := List.get?_mem hm
      rcases List.mem_append.mp hmem with hc | hc
      · rcases List.mem_map.mp hc with ⟨x, _, hx⟩
        exact absurd hx (by simp)
      · cases cf <;> simp at hc
    have hkn : n ≤ k := by
      by_contra hlt
      rw [List.get?_append (by omega)] at hk
      have hmem := List.get?_mem hk
      rcases List.mem_map.mp hmem with ⟨x, _, hx⟩
      exact absurd hx (by simp)
    omega
  · simp [ctorEvents]
  · have h : dtorEvents (⟨mo, n, cf, false⟩ : StackVector T)
        = (if cf then [Event.release] else []) := by
      simp [dtorEvents]
    rw [h]
    cases cf <;> simp [isConstructEv, isDestructEv]

/-- Witness for C2: on a one-element owning buffer the lifecycle trace has
the construction at position 0 and the destruction at position 1. -/
theorem C2_element_lifecycle_witness :
    (lifeEvents (⟨some (fun _ => (0 : Nat)), 1, true, true⟩ : StackVector Nat)).get? 0
        = some (Event.construct 0) ∧
    (lifeEvents (⟨some (fun _ => (0 : Nat)), 1, true, true⟩ : StackVector Nat)).get? 1
        = some (Event.destruct 0) ∧
    (0 : Nat) < 1 :=
  ⟨by decide, by decide,
    (C2_element_lifecycle (fun _ => (0 : Nat)) 1 true none).2.2.1
      0 1 0 0 (by decide) (by decide)⟩

/-- C5: `isValid()` is false exactly when storage is null or
`elementCount == 0`; in particular a constructor run whose heap allocation
fails (`malloc` returned null) yields a buffer that is valid only if the
frame-local path was taken and the count is positive. -/
theorem C5_isValid (sizeofT sz mustLeave : Nat) (callCD : Bool)
    (env : StackEnv) (stackMem : Nat → Nat) :
    (∀ (T : Type) (v : StackVector T),
      isValid v = false ↔ (v.memory = none ∨ v.size = 0)) ∧
    isValid (mkStackVector Nat sizeofT sz mustLeave callCD env stackMem none)
      = (canReserveStack env (needBytes sizeofT sz) mustLeave
          && decide (0 < sz)) := by
  constructor
  · intro T v
    rcases v with ⟨mo, n, a, b⟩
    cases mo <;> simp [isValid]
  · unfold mkStackVector
    split
    · rename_i h
      simp [isValid, h]
    · rename_i h
      simp only [isValid, Option.isSome_none, Bool.false_and]
      rw [Bool.eq_false_iff.mpr h, Bool.false_and]

/-- Witness for C5: a buffer whose heap acquisition failed reports itself
invalid. -/
theorem C5_isValid_witness :
    isValid (⟨none, 5, true, true⟩ : StackVector Nat) = false :=
  ((C5_isValid 4 5 16384 true ⟨0, 0, 0, false, 0⟩ (fun _ => 0)).1
    Nat ⟨none, 5, true, true⟩).mpr (Or.inl rfl)

/-- C6: the allocation-path tag recorded at construction is exactly the
capacity decision, and destruction performs exactly one release call when
the tag is `Heap` and none when it is `FrameLocal`. -/
theorem C6_release_follows_origin {T : Type} (sizeofT sz mustLeave : Nat)
    (callCD : Bool) (env : StackEnv) (stackMem : Nat → T)
    (heapMem : Option (Nat → T)) :
    storageOrigin (mkStackVector T sizeofT sz mustLeave callCD env stackMem heapMem)
      = decideOrigin env (needBytes sizeofT sz) mustLeave ∧
    (∀ v : StackVector T, (dtorEvents v).count Event.release
      = (if storageOrigin v = StorageOrigin.Heap then 1 else 0)) := by
  constructor
  · unfold mkStackVector decideOrigin
    split <;> simp [storageOrigin]
  · intro v
    rw [dtorEvents, List.count_append]
    have h1 : ((if v.callCtorsDtors && v.memory.isSome then
        (List.range v.size).map Event.destruct else []) : List Event).count
          Event.release = 0 := by
      split
      · exact count_release_map_destruct _
      · rfl
    rw [h1]
    cases hcf : v.callFree <;> simp [storageOrigin, hcf]

/-- C7: indexed access always performs the raw slot read, bounds-unchecked;
the out-of-bounds diagnostic fires exactly when the build is a debug build
and the index is at least `elementCount`, and in a release build nothing
fires at all. -/
theorem C7_index_access_unchecked {T : Type} (mem : Nat → T) (sz : Nat)
    (dbg : Bool) (index : Nat) :
    (idxAccess mem sz dbg index).1 = mem index ∧
    ((idxAccess mem sz dbg index).2 = true ↔ (dbg = true ∧ sz ≤ index)) ∧
    (idxAccess mem sz false index).2 = false := by
  refine ⟨rfl, ?_, rfl⟩
  cases dbg <;> by_cases h : sz ≤ index <;> simp [idxAccess, h]

/-- Witness for C7: an out-of-bounds access in a debug build still returns
the raw slot and fires the diagnostic. -/
theorem C7_index_access_unchecked_witness :
    (idxAccess (fun i => i) 3 true 5).1 = 5 ∧
    (idxAccess (fun i => i) 3 true 5).2 = true :=
  ⟨(C7_index_access_unchecked (fun i => i) 3 true 5).1,
    (C7_index_access_unchecked (fun i => i) 3 true 5).2.1.mpr
      ⟨rfl, by decide⟩⟩

/-- C8: a buffer constructed with `elementCount = 0` triggers zero element
constructions, zero element destructions, zero `forEach` and `whileEach`
callback invocations, and reports `isValid() = false`. -/
theorem C8_zero_count_harmless {T : Type} (sizeofT mustLeave : Nat)
    (cd : Bool) (env : StackEnv) (stackMem : Nat → T)
    (heapMem : Option (Nat → T)) (f : T → Nat → Bool) :
    ctorEvents (mkStackVector T sizeofT 0 mustLeave cd env stackMem heapMem)
      = [] ∧
    (dtorEvents (mkStackVector T sizeofT 0 mustLeave cd env stackMem heapMem)).filter
      (fun e => isConstructEv e || isDestructEv e) = [] ∧
    forEach (mkStackVector T sizeofT 0 mustLeave cd env stackMem heapMem)
      = [] ∧
    whileEach (mkStackVector T sizeofT 0 mustLeave cd env stackMem heapMem) f
      = [] ∧
    isValid (mkStackVector T sizeofT 0 mustLeave cd env stackMem heapMem)
      = false := by
  unfold mkStackVector
  split
  · refine ⟨by simp [ctorEvents], ?_, ?_, ?_, by simp [isValid]⟩
    · simp [dtorEvents]
    · show forEachLoop stackMem 0 0 = []
      rw [forEachLoop]
      simp
    · show whileEachLoop stackMem f 0 0 = []
      rw [whileEachLoop]
      simp
  · cases heapMem with
    | none => exact ⟨by simp [ctorEvents],
        by cases cd <;> simp [dtorEvents, isConstructEv, isDestructEv],
        rfl, rfl, by simp [isValid]⟩
    | some hm =>
      refine ⟨by simp [ctorEvents],
        by simp [dtorEvents, isConstructEv, isDestructEv], ?_, ?_,
        by simp [isValid]⟩
      · show forEachLoop hm 0 0 = []
        rw [forEachLoop]
        simp
      · show whileEachLoop hm f 0 0 = []
        rw [whileEachLoop]
        simp

/-- C10: `count()` returns exactly the `elementCount` given to the
constructor, on both allocation paths and also when heap acquisition
failed; and the mutable iteration never changes the stored count, the
flags, or whether storage is present. -/
theorem C10_count_immutable {T : Type} (sizeofT sz mustLeave : Nat)
    (cd : Bool) (env : StackEnv) (stackMem : Nat → T)
    (heapMem : Option (Nat → T)) (f : T → Nat → T) :
    count (mkStackVector T sizeofT sz mustLeave cd env stackMem heapMem) = sz ∧
    count (mkStackVector T sizeofT sz mustLeave cd env stackMem none) = sz ∧
    (∀ v : StackVector T,
      count (forEachUpdate v f) = count v ∧
      (forEachUpdate v f).size = v.size ∧
      (forEachUpdate v f).callFree = v.callFree ∧
      (forEachUpdate v f).callCtorsDtors = v.callCtorsDtors ∧
      (forEachUpdate v f).memory.isSome = v.memory.isSome) := by
  refine ⟨?_, ?_, ?_⟩
  · unfold mkStackVector
    split <;> rfl
  · unfold mkStackVector
    split <;> rfl
  · intro v
    rcases v with ⟨mo, n, a, b⟩
    cases mo <;> simp [forEachUpdate, count]

end SV
